import Mathlib

/-!
Verification development for the IK2203 distributed coordination service.

The development shallowly embeds the two source files of the repository:

* `src/omnipaxos_core/src/messages.rs` — the message protocol (the
  `sequence_paxos` and `ballot_leader_election` families and the `Message`
  envelope with its `get_sender`/`get_receiver` accessors);
* `src/ddbb_server/src/omni_paxos_server/op_connection.rs` — the `OmniSIMO`
  transport (shared outgoing queue, per-instance incoming queue, per-peer
  sender loops, the `connected` list and the quorum gate of `start_sender`).

Machine integers (`u64` node ids and log indices, `u32` rounds) are carried
and compared but never subjected to wrap-around arithmetic in the embedded
code, so they are modelled as `Nat`.  Stateful loops are modelled as step
functions on explicit state, iterated over explicit schedules (poll traces,
write-outcome scripts), and the cross-task mutations of the `connected` list
are modelled as a labelled transition system.
-/

set_option maxHeartbeats 1000000

namespace OmniPaxos

/-- Node identifier (`NodeId`, a `u64` in `omnipaxos_core::util`).  Ids are
only constructed, stored and compared for equality, so `Nat` is a faithful
model. -/
abbrev NodeId := Nat

/-- Modelled from the spec: `Ballot` (its source file
`ballot_leader_election.rs` is not under `src/`).  The spec describes it as a
totally ordered leader-epoch token made of a round number and the proposer's
`NodeId`. -/
structure Ballot where
  n : Nat
  pid : NodeId
deriving DecidableEq

/-- Modelled from the spec: `StopSign` (its source file `storage.rs` is not
under `src/`).  The spec describes it as a reconfiguration marker carrying the
new member set plus metadata. -/
structure StopSign where
  nodes : List NodeId
  metadata : Option (List Nat)
deriving DecidableEq

/-- Modelled from the spec: `SnapshotType` (its source file `storage.rs` is
not under `src/`).  The spec only says that `Promise`/`AcceptSync` may carry
the decided snapshot, so the wrapper is modelled as holding a snapshot value
of type `S`. -/
structure SnapshotType (T S : Type) where
  snapshot : S
deriving DecidableEq

/-- `Prepare` message sent by a newly-elected leader (messages.rs, lines
20-30). -/
structure Prepare where
  n : Ballot
  decided_idx : Nat
  n_accepted : Ballot
  accepted_idx : Nat
deriving DecidableEq

/-- `Promise` message sent by a follower in response to a `Prepare`
(messages.rs, lines 33-53). -/
structure Promise (T S : Type) where
  n : Ballot
  n_accepted : Ballot
  decided_snapshot : Option (SnapshotType T S)
  suffix : List T
  decided_idx : Nat
  accepted_idx : Nat
  stopsign : Option StopSign
deriving DecidableEq

/-- `AcceptSync` message sent by the leader to synchronize the logs
(messages.rs, lines 56-74). -/
structure AcceptSync (T S : Type) where
  n : Ballot
  decided_snapshot : Option (SnapshotType T S)
  suffix : List T
  sync_idx : Nat
  decided_idx : Nat
  stopsign : Option StopSign
deriving DecidableEq

/-- `FirstAccept` message, only used by a pre-elected leader after
reconfiguration (messages.rs, lines 77-81). -/
structure FirstAccept where
  n : Ballot
deriving DecidableEq

/-- `AcceptDecide` message with entries to be replicated (messages.rs, lines
84-95). -/
structure AcceptDecide (T : Type) where
  n : Ballot
  decided_idx : Nat
  entries : List T
deriving DecidableEq

/-- `Accepted` message sent by a follower (messages.rs, lines 98-104). -/
structure Accepted where
  n : Ballot
  accepted_idx : Nat
deriving DecidableEq

/-- `Decide` message sent by the leader (messages.rs, lines 107-113). -/
structure Decide where
  n : Ballot
  decided_idx : Nat
deriving DecidableEq

/-- `AcceptStopSign` message (messages.rs, lines 116-122). -/
structure AcceptStopSign where
  n : Ballot
  ss : StopSign
deriving DecidableEq

/-- `AcceptedStopSign` message (messages.rs, lines 125-129). -/
structure AcceptedStopSign where
  n : Ballot
deriving DecidableEq

/-- `DecideStopSign` message (messages.rs, lines 132-136). -/
structure DecideStopSign where
  n : Ballot
deriving DecidableEq

/-- `Compaction` request (messages.rs, lines 140-144). -/
inductive Compaction where
  | Trim (idx : Nat)
  | Snapshot (idx : Option Nat)
deriving DecidableEq

/-- `PaxosMsg`, the closed set of log-replication message variants
(messages.rs, lines 148-171). -/
inductive PaxosMsg (T S : Type) where
  | PrepareReq
  | Prepare (p : Prepare)
  | Promise (p : Promise T S)
  | AcceptSync (a : AcceptSync T S)
  | FirstAccept (f : FirstAccept)
  | AcceptDecide (a : AcceptDecide T)
  | Accepted (a : Accepted)
  | Decide (d : Decide)
  | ProposalForward (entries : List T)
  | Compaction (c : Compaction)
  | AcceptStopSign (a : AcceptStopSign)
  | AcceptedStopSign (a : AcceptedStopSign)
  | DecideStopSign (d : DecideStopSign)
  | ForwardStopSign (ss : StopSign)
deriving DecidableEq

/-- `PaxosMessage`, the log-replication envelope with sender and receiver
(messages.rs, lines 174-186).  The Rust field names `from`/`to` are kept
verbatim (quoted, since `from` is a Lean keyword). -/
structure PaxosMessage (T S : Type) where
  «from» : NodeId
  «to» : NodeId
  msg : PaxosMsg T S
deriving DecidableEq

/-- `HeartbeatRequest` (messages.rs, lines 203-207). -/
structure HeartbeatRequest where
  round : Nat
deriving DecidableEq

/-- `HeartbeatReply` (messages.rs, lines 210-218). -/
structure HeartbeatReply where
  round : Nat
  ballot : Ballot
  quorum_connected : Bool
deriving DecidableEq

/-- `HeartbeatMsg`, the closed set of leader-election message variants
(messages.rs, lines 196-200). -/
inductive HeartbeatMsg where
  | Request (r : HeartbeatRequest)
  | Reply (r : HeartbeatReply)
deriving DecidableEq

/-- `BLEMessage`, the leader-election envelope with sender and receiver
(messages.rs, lines 221-229). -/
structure BLEMessage where
  «from» : NodeId
  «to» : NodeId
  msg : HeartbeatMsg
deriving DecidableEq

/-- `Message`, the `OmniMessage` union of the two envelope kinds
(messages.rs, lines 234-243). -/
inductive Message (T S : Type) where
  | SequencePaxos (p : PaxosMessage T S)
  | BLE (b : BLEMessage)
deriving DecidableEq

variable {T S : Type}

/-- `Message::get_sender` (messages.rs, lines 251-256). -/
def Message.get_sender : Message T S → NodeId
  | .SequencePaxos p => p.«from»
  | .BLE b => b.«from»

/-- `Message::get_receiver` (messages.rs, lines 259-264). -/
def Message.get_receiver : Message T S → NodeId
  | .SequencePaxos p => p.«to»
  | .BLE b => b.«to»

/-!
Transport embedding (`op_connection.rs`).  The `OmniMessageBuf` deques
(`VecDeque<OmniMessage>` behind a mutex) are modelled as `List (Message T S)`,
front of the deque at the head of the list; `push_back` appends at the tail,
`pop_front` removes the head.
-/

/-- `OmniSIMO::send_message` (op_connection.rs, lines 43-48): `push_back` of a
clone of the message onto the shared outgoing buffer.  The function is total —
the Rust original has no failure path and never blocks beyond the lock. -/
def send_message (buf : List (Message T S)) (m : Message T S) : List (Message T S) :=
  buf ++ [m]

/-- `OmniSIMO::receive_message` (op_connection.rs, lines 50-61): a polling
loop that on each wake tries `pop_front` on the incoming buffer and returns
the popped message, sleeping while the buffer is empty.  The loop is modelled
over the finite trace of incoming-buffer snapshots seen at successive polls:
the result is the front of the first non-empty snapshot together with the rest
of that snapshot, and `none` when every polled snapshot was empty (the caller
is still suspended after the trace). -/
def receive_message (polls : List (List (Message T S))) :
    Option (Message T S × List (Message T S)) :=
  match polls with
  | [] => none
  | [] :: qs => receive_message qs
  | (m :: rest) :: _ => some (m, rest)

/-- The quorum readiness threshold checked by `start_sender`
(op_connection.rs, line 151): `(peers.len() + 1) / 2 + 1` in integer
(flooring) division, where `peers` excludes self. -/
def quorum_threshold (peerCount : Nat) : Nat :=
  (peerCount + 1) / 2 + 1

/-- The readiness-polling loop of `OmniSIMO::start_sender` (op_connection.rs,
lines 150-155): after spawning the per-peer senders it repeatedly polls
`connected.len()` and returns as soon as it is at least the quorum threshold.
Modelled over the finite trace of `connected.len()` values seen at successive
polls; the result is the index of the poll at which the loop returns, `none`
when the gate never opened during the trace. -/
def start_sender_poll (peerCount : Nat) : List Nat → Option Nat
  | [] => none
  | n :: rest =>
    if quorum_threshold peerCount ≤ n then some 0
    else (start_sender_poll peerCount rest).map (· + 1)

/-- State of one per-peer sender task of `process_outgoing_connection`
together with the shared structures it touches (op_connection.rs, lines
63-126).  `buf` is the shared outgoing buffer, `connected` the shared
`connected` vector; `written` records every message this sender passed to
`write_frame` on its own connection (in order), and `delivered` the subset of
those whose write succeeded — by per-connection byte-stream order these are
the messages that arrive at this sender's peer, in order. -/
structure SenderState (T S : Type) where
  buf : List (Message T S)
  connected : List NodeId
  delivered : List (Message T S)
  written : List (Message T S)
deriving DecidableEq

/-- One iteration of the sender loop of
`OmniSIMO::process_outgoing_connection` (op_connection.rs, lines 80-124) for
the sender owning peer `rid`, with `writeOk` the outcome of `write_frame` if a
write is attempted this iteration.  Mirroring the source: if the head
message's receiver is not in `connected` it is popped and discarded (lines
89-101); else if it equals `rid` it is popped and written (lines 91-110) —
on write failure (lines 111-118) `rid` is removed from `connected` via
`retain`, the connection is re-established, and `rid` is re-inserted at the
front, the popped message being neither delivered nor re-queued; otherwise the
buffer is left untouched for the sender owning that receiver. -/
def process_outgoing_connection_iter (rid : NodeId) (writeOk : Bool)
    (s : SenderState T S) : SenderState T S :=
  match s.buf with
  | [] => s
  | msg :: rest =>
    if msg.get_receiver ∈ s.connected then
      if msg.get_receiver = rid then
        if writeOk then
          { s with buf := rest, delivered := s.delivered ++ [msg],
                   written := s.written ++ [msg] }
        else
          { buf := rest,
            connected := rid :: s.connected.filter (fun x => x ≠ rid),
            delivered := s.delivered,
            written := s.written ++ [msg] }
      else s
    else
      { s with buf := rest }

/-- Iterating the sender loop over a script of `write_frame` outcomes, one
per loop iteration. -/
def process_outgoing_connection_run (rid : NodeId) :
    List Bool → SenderState T S → SenderState T S
  | [], s => s
  | w :: ws, s => process_outgoing_connection_run rid ws
      (process_outgoing_connection_iter rid w s)

/-- What `Connection::read_frame` produced for one turn of the inbound reader
loop (op_connection.rs, line 183): a well-formed frame (`Ok(Some(frame))`), or
anything else (`Ok(None)` / `Err`) — both taken by the source's `else` branch
as a dropped connection. -/
inductive ReadEvent (F : Type) where
  | frame (f : F)
  | closed
deriving DecidableEq

/-- Outcome of one turn of the inbound reader loop of
`OmniSIMO::process_connection`. -/
inductive ReaderOutcome where
  /-- the frame decoded; the message was pushed and the loop continues. -/
  | running
  /-- the `else` branch: the reader task terminates normally (`break`). -/
  | terminated
  /-- `OmniMessageEntry::from_frame(..).unwrap()` received an `Err`: the task
  panics. -/
  | crashed
deriving DecidableEq

/-- One turn of the inbound reader loop of `OmniSIMO::process_connection`
(op_connection.rs, lines 182-194), for one inbound connection with its own
state only — other connections have their own independent reader tasks and
buffers are only appended to, so they are structurally unaffected.  `decode`
models `OmniMessageEntry::from_frame` (defined in `ddbb_libs`, outside
`src/`), `some` for a decodable frame and `none` for `Err`.  Mirroring the
source: a read failure (`closed`) takes the `else` branch and terminates the
reader; a decodable frame is pushed onto the incoming buffer with `push_back`;
an undecodable frame hits `.unwrap()` on the `Err` and the task panics. -/
def process_connection_step {F : Type} (decode : F → Option (Message T S))
    (incoming : List (Message T S)) :
    ReadEvent F → ReaderOutcome × List (Message T S)
  | .closed => (.terminated, incoming)
  | .frame f =>
    match decode f with
    | some m => (.running, incoming ++ [m])
    | none => (.crashed, incoming)

/-!
The `connected` vector as a transition system.  Across all tasks of one
`OmniSIMO` instance, `connected` is mutated at exactly three places in
`op_connection.rs`, all by the per-peer sender owning the peer in question:
`insert(0, reveiver_id)` after the initial connect succeeds (line 78),
`retain(|&x| x != reveiver_id)` on a write failure (line 113), and
`insert(0, reveiver_id)` after the subsequent reconnect succeeds (line 117).
Every other access (`contains` in the discard check, `len()` in the quorum
gate) is a read.  Each mutation site is one labelled step; the phase map
records where each peer's sender is in its control flow.
-/

/-- Control-flow phase of the sender task owned by one peer. -/
inductive SenderPhase where
  /-- still in the initial connect loop (op_connection.rs, lines 71-77). -/
  | connecting
  /-- in the send loop with a live connection. -/
  | live
  /-- inside the reconnect call after a write failure (line 115). -/
  | reconnecting
deriving DecidableEq

/-- The shared `connected` vector together with each sender's control-flow
phase.  `peers` is the static peer table's key set; senders are spawned only
for peers in the table (op_connection.rs, lines 134-148). -/
structure SIMOConnState where
  connected : List NodeId
  phase : NodeId → SenderPhase

/-- Initial state: `connected` starts empty (op_connection.rs, line 37) and
every sender starts in its connect loop. -/
def SIMOConnState.init : SIMOConnState :=
  { connected := [], phase := fun _ => .connecting }

/-- The three `connected`-mutating events of `op_connection.rs`, labelled by
the peer whose sender performs them. -/
inductive SIMOStep (peers : List NodeId) : SIMOConnState → SIMOConnState → Prop where
  /-- the initial connect succeeds: `connected.insert(0, reveiver_id)`
  (line 78). -/
  | connect (p : NodeId) (s : SIMOConnState) (hp : p ∈ peers)
      (h : s.phase p = .connecting) :
      SIMOStep peers s
        { connected := p :: s.connected,
          phase := Function.update s.phase p .live }
  /-- a write fails: `connected.retain(|&x| x != reveiver_id)` (line 113). -/
  | writeFail (p : NodeId) (s : SIMOConnState) (h : s.phase p = .live) :
      SIMOStep peers s
        { connected := s.connected.filter (fun x => x ≠ p),
          phase := Function.update s.phase p .reconnecting }
  /-- the reconnect succeeds: `connected.insert(0, reveiver_id)` (line 117). -/
  | reconnected (p : NodeId) (s : SIMOConnState) (h : s.phase p = .reconnecting) :
      SIMOStep peers s
        { connected := p :: s.connected,
          phase := Function.update s.phase p .live }

/-- Reachability of a `connected`-state from startup through the three
mutation events. -/
def SIMOReachable (peers : List NodeId) (s : SIMOConnState) : Prop :=
  Relation.ReflTransGen (SIMOStep peers) SIMOConnState.init s

/-- The inductive invariant tying the `connected` vector to the senders'
phases: a peer is listed exactly while its sender holds a live connection,
the listed ids all come from the peer table, and the list never holds
duplicates. -/
def SIMOInv (peers : List NodeId) (s : SIMOConnState) : Prop :=
  s.connected.Nodup ∧
  (∀ p, p ∈ s.connected ↔ s.phase p = .live) ∧
  (∀ p, s.phase p ≠ .connecting → p ∈ peers)

/-!
Serialization.  `messages.rs` derives `Serialize`/`Deserialize` on every
variant; the serde codec itself is library code outside `src/`.  Modelled
from the spec: §6 requires each message to be "serialized to a self-describing
byte payload" reconstructible without external context, so the wire form is a
self-describing tagged tree, with one encoder/decoder per message type
following the field layout of `messages.rs` and codecs for the `Entry` and
`Snapshot` type parameters supplied externally (they are application types
outside the sampled core).
-/

/-- Modelled from the spec: a self-describing wire value (§6). -/
inductive Wire where
  | nat (n : Nat)
  | bool (b : Bool)
  | tag (t : Nat) (args : List Wire)

variable {α : Type}

def encNat (n : Nat) : Wire := .nat n

def decNat : Wire → Option Nat
  | .nat n => some n
  | _ => none

def encBool (b : Bool) : Wire := .bool b

def decBool : Wire → Option Bool
  | .bool b => some b
  | _ => none

def encOpt (enc : α → Wire) : Option α → Wire
  | none => .tag 0 []
  | some a => .tag 1 [enc a]

def decOpt (dec : Wire → Option α) : Wire → Option (Option α)
  | .tag 0 [] => some none
  | .tag 1 [w] => (dec w).map some
  | _ => none

def encListW (enc : α → Wire) (l : List α) : Wire := .tag 0 (l.map enc)

def decListAux (dec : Wire → Option α) : List Wire → Option (List α)
  | [] => some []
  | w :: ws =>
    match dec w, decListAux dec ws with
    | some a, some l => some (a :: l)
    | _, _ => none

def decListW (dec : Wire → Option α) : Wire → Option (List α)
  | .tag 0 ws => decListAux dec ws
  | _ => none

def encBallot (b : Ballot) : Wire := .tag 0 [.nat b.n, .nat b.pid]

def decBallot : Wire → Option Ballot
  | .tag 0 [.nat n, .nat pid] => some ⟨n, pid⟩
  | _ => none

def encStopSign (ss : StopSign) : Wire :=
  .tag 0 [encListW encNat ss.nodes, encOpt (encListW encNat) ss.metadata]

def decStopSign : Wire → Option StopSign
  | .tag 0 [w1, w2] =>
    match decListW decNat w1, decOpt (decListW decNat) w2 with
    | some nodes, some md => some ⟨nodes, md⟩
    | _, _ => none
  | _ => none

def encSnapshotType (encS : S → Wire) (st : SnapshotType T S) : Wire :=
  .tag 0 [encS st.snapshot]

def decSnapshotType (decS : Wire → Option S) : Wire → Option (SnapshotType T S)
  | .tag 0 [w] => (decS w).map (fun s => ⟨s⟩)
  | _ => none

def encPrepare (p : Prepare) : Wire :=
  .tag 0 [encBallot p.n, .nat p.decided_idx, encBallot p.n_accepted,
          .nat p.accepted_idx]

def decPrepare : Wire → Option Prepare
  | .tag 0 [w1, .nat di, w2, .nat ai] =>
    match decBallot w1, decBallot w2 with
    | some n, some na => some ⟨n, di, na, ai⟩
    | _, _ => none
  | _ => none

def encPromise (encT : T → Wire) (encS : S → Wire) (p : Promise T S) : Wire :=
  .tag 0 [encBallot p.n, encBallot p.n_accepted,
          encOpt (encSnapshotType encS) p.decided_snapshot,
          encListW encT p.suffix, .nat p.decided_idx, .nat p.accepted_idx,
          encOpt encStopSign p.stopsign]

def decPromise (decT : Wire → Option T) (decS : Wire → Option S) :
    Wire → Option (Promise T S)
  | .tag 0 [w1, w2, w3, w4, .nat di, .nat ai, w7] =>
    match decBallot w1, decBallot w2, decOpt (decSnapshotType decS) w3,
          decListW decT w4, decOpt decStopSign w7 with
    | some n, some na, some ds, some suf, some ss =>
      some ⟨n, na, ds, suf, di, ai, ss⟩
    | _, _, _, _, _ => none
  | _ => none

def encAcceptSync (encT : T → Wire) (encS : S → Wire) (a : AcceptSync T S) : Wire :=
  .tag 0 [encBallot a.n, encOpt (encSnapshotType encS) a.decided_snapshot,
          encListW encT a.suffix, .nat a.sync_idx, .nat a.decided_idx,
          encOpt encStopSign a.stopsign]

def decAcceptSync (decT : Wire → Option T) (decS : Wire → Option S) :
    Wire → Option (AcceptSync T S)
  | .tag 0 [w1, w2, w3, .nat si, .nat di, w6] =>
    match decBallot w1, decOpt (decSnapshotType decS) w2, decListW decT w3,
          decOpt decStopSign w6 with
    | some n, some ds, some suf, some ss => some ⟨n, ds, suf, si, di, ss⟩
    | _, _, _, _ => none
  | _ => none

def encFirstAccept (f : FirstAccept) : Wire := .tag 0 [encBallot f.n]

def decFirstAccept : Wire → Option FirstAccept
  | .tag 0 [w] => (decBallot w).map (fun n => ⟨n⟩)
  | _ => none

def encAcceptDecide (encT : T → Wire) (a : AcceptDecide T) : Wire :=
  .tag 0 [encBallot a.n, .nat a.decided_idx, encListW encT a.entries]

def decAcceptDecide (decT : Wire → Option T) : Wire → Option (AcceptDecide T)
  | .tag 0 [w1, .nat di, w2] =>
    match decBallot w1, decListW decT w2 with
    | some n, some entries => some ⟨n, di, entries⟩
    | _, _ => none
  | _ => none

def encAccepted (a : Accepted) : Wire := .tag 0 [encBallot a.n, .nat a.accepted_idx]

def decAccepted : Wire → Option Accepted
  | .tag 0 [w, .nat ai] => (decBallot w).map (fun n => ⟨n, ai⟩)
  | _ => none

def encDecide (d : Decide) : Wire := .tag 0 [encBallot d.n, .nat d.decided_idx]

def decDecide : Wire → Option Decide
  | .tag 0 [w, .nat di] => (decBallot w).map (fun n => ⟨n, di⟩)
  | _ => none

def encAcceptStopSign (a : AcceptStopSign) : Wire :=
  .tag 0 [encBallot a.n, encStopSign a.ss]

def decAcceptStopSign : Wire → Option AcceptStopSign
  | .tag 0 [w1, w2] =>
    match decBallot w1, decStopSign w2 with
    | some n, some ss => some ⟨n, ss⟩
    | _, _ => none
  | _ => none

def encAcceptedStopSign (a : AcceptedStopSign) : Wire := .tag 0 [encBallot a.n]

def decAcceptedStopSign : Wire → Option AcceptedStopSign
  | .tag 0 [w] => (decBallot w).map (fun n => ⟨n⟩)
  | _ => none

def encDecideStopSign (d : DecideStopSign) : Wire := .tag 0 [encBallot d.n]

def decDecideStopSign : Wire → Option DecideStopSign
  | .tag 0 [w] => (decBallot w).map (fun n => ⟨n⟩)
  | _ => none

def encCompaction : Compaction → Wire
  | .Trim idx => .tag 0 [.nat idx]
  | .Snapshot idx => .tag 1 [encOpt encNat idx]

def decCompaction : Wire → Option Compaction
  | .tag 0 [.nat idx] => some (.Trim idx)
  | .tag 1 [w] => (decOpt decNat w).map Compaction.Snapshot
  | _ => none

def encPaxosMsg (encT : T → Wire) (encS : S → Wire) : PaxosMsg T S → Wire
  | .PrepareReq => .tag 0 []
  | .Prepare p => .tag 1 [encPrepare p]
  | .Promise p => .tag 2 [encPromise encT encS p]
  | .AcceptSync a => .tag 3 [encAcceptSync encT encS a]
  | .FirstAccept f => .tag 4 [encFirstAccept f]
  | .AcceptDecide a => .tag 5 [encAcceptDecide encT a]
  | .Accepted a => .tag 6 [encAccepted a]
  | .Decide d => .tag 7 [encDecide d]
  | .ProposalForward entries => .tag 8 [encListW encT entries]
  | .Compaction c => .tag 9 [encCompaction c]
  | .AcceptStopSign a => .tag 10 [encAcceptStopSign a]
  | .AcceptedStopSign a => .tag 11 [encAcceptedStopSign a]
  | .DecideStopSign d => .tag 12 [encDecideStopSign d]
  | .ForwardStopSign ss => .tag 13 [encStopSign ss]

def decPaxosMsg (decT : Wire → Option T) (decS : Wire → Option S) :
    Wire → Option (PaxosMsg T S)
  | .tag 0 [] => some .PrepareReq
  | .tag 1 [w] => (decPrepare w).map PaxosMsg.Prepare
  | .tag 2 [w] => (decPromise decT decS w).map PaxosMsg.Promise
  | .tag 3 [w] => (decAcceptSync decT decS w).map PaxosMsg.AcceptSync
  | .tag 4 [w] => (decFirstAccept w).map PaxosMsg.FirstAccept
  | .tag 5 [w] => (decAcceptDecide decT w).map PaxosMsg.AcceptDecide
  | .tag 6 [w] => (decAccepted w).map PaxosMsg.Accepted
  | .tag 7 [w] => (decDecide w).map PaxosMsg.Decide
  | .tag 8 [w] => (decListW decT w).map PaxosMsg.ProposalForward
  | .tag 9 [w] => (decCompaction w).map PaxosMsg.Compaction
  | .tag 10 [w] => (decAcceptStopSign w).map PaxosMsg.AcceptStopSign
  | .tag 11 [w] => (decAcceptedStopSign w).map PaxosMsg.AcceptedStopSign
  | .tag 12 [w] => (decDecideStopSign w).map PaxosMsg.DecideStopSign
  | .tag 13 [w] => (decStopSign w).map PaxosMsg.ForwardStopSign
  | _ => none

def encPaxosMessage (encT : T → Wire) (encS : S → Wire) (pm : PaxosMessage T S) : Wire :=
  .tag 0 [.nat pm.«from», .nat pm.«to», encPaxosMsg encT encS pm.msg]

def decPaxosMessage (decT : Wire → Option T) (decS : Wire → Option S) :
    Wire → Option (PaxosMessage T S)
  | .tag 0 [.nat f, .nat t, w] =>
    (decPaxosMsg decT decS w).map (fun m => ⟨f, t, m⟩)
  | _ => none

def encHeartbeatRequest (r : HeartbeatRequest) : Wire := .tag 0 [.nat r.round]

def decHeartbeatRequest : Wire → Option HeartbeatRequest
  | .tag 0 [.nat round] => some ⟨round⟩
  | _ => none

def encHeartbeatReply (r : HeartbeatReply) : Wire :=
  .tag 0 [.nat r.round, encBallot r.ballot, .bool r.quorum_connected]

def decHeartbeatReply : Wire → Option HeartbeatReply
  | .tag 0 [.nat round, w, .bool qc] =>
    (decBallot w).map (fun b => ⟨round, b, qc⟩)
  | _ => none

def encHeartbeatMsg : HeartbeatMsg → Wire
  | .Request r => .tag 0 [encHeartbeatRequest r]
  | .Reply r => .tag 1 [encHeartbeatReply r]

def decHeartbeatMsg : Wire → Option HeartbeatMsg
  | .tag 0 [w] => (decHeartbeatRequest w).map HeartbeatMsg.Request
  | .tag 1 [w] => (decHeartbeatReply w).map HeartbeatMsg.Reply
  | _ => none

def encBLEMessage (bm : BLEMessage) : Wire :=
  .tag 0 [.nat bm.«from», .nat bm.«to», encHeartbeatMsg bm.msg]

def decBLEMessage : Wire → Option BLEMessage
  | .tag 0 [.nat f, .nat t, w] => (decHeartbeatMsg w).map (fun m => ⟨f, t, m⟩)
  | _ => none

def encMessage (encT : T → Wire) (encS : S → Wire) : Message T S → Wire
  | .SequencePaxos pm => .tag 0 [encPaxosMessage encT encS pm]
  | .BLE bm => .tag 1 [encBLEMessage bm]

def decMessage (decT : Wire → Option T) (decS : Wire → Option S) :
    Wire → Option (Message T S)
  | .tag 0 [w] => (decPaxosMessage decT decS w).map Message.SequencePaxos
  | .tag 1 [w] => (decBLEMessage w).map Message.BLE
  | _ => none

/-!
Concrete values used by the closed witness and counterexample theorems.
-/

/-- A Paxos message addressed to node 3 (not connected in `senderStateEx2`). -/
def msgEx2 : Message Nat Nat :=
  .SequencePaxos { «from» := 1, «to» := 3, msg := .PrepareReq }

/-- A sender state whose head message is addressed to a disconnected node. -/
def senderStateEx2 : SenderState Nat Nat :=
  { buf := [msgEx2], connected := [1, 2], delivered := [], written := [] }

/-- A Paxos message addressed to node 2, tagged with `k` to keep the three
queued messages distinguishable. -/
def msgC3 (k : Nat) : Message Nat Nat :=
  .SequencePaxos { «from» := 1, «to» := 2, msg := .Accepted ⟨⟨0, 0⟩, k⟩ }

/-- The C3 scenario: three messages queued for the connected peer 2. -/
def senderStateC3 : SenderState Nat Nat :=
  { buf := [msgC3 1, msgC3 2, msgC3 3], connected := [2], delivered := [],
    written := [] }

/-- A Paxos message addressed to node 2 (connected but not owned by sender 1). -/
def msgEx5 : Message Nat Nat :=
  .SequencePaxos { «from» := 1, «to» := 2, msg := .PrepareReq }

/-- A sender state whose head message is addressed to a connected peer owned
by a different sender. -/
def senderStateEx5 : SenderState Nat Nat :=
  { buf := [msgEx5], connected := [1, 2], delivered := [], written := [] }

/-- A decoded inbound message for the C4 and C6 examples. -/
def msgEx4 : Message Nat Nat :=
  .BLE { «from» := 1, «to» := 2, msg := .Request ⟨0⟩ }

/-- A model of `OmniMessageEntry::from_frame` over 1-bit frames: frame `true`
decodes, frame `false` yields `Err`. -/
def decodeEx4 : Bool → Option (Message Nat Nat) :=
  fun f => if f then some msgEx4 else none

/-- A rich message exercising nested fields for the round-trip witness. -/
def msgEx9 : Message Nat Nat :=
  .SequencePaxos
    { «from» := 1, «to» := 2,
      msg := .Promise
        { n := ⟨1, 1⟩, n_accepted := ⟨0, 0⟩,
          decided_snapshot := some ⟨7⟩, suffix := [5, 6],
          decided_idx := 3, accepted_idx := 4,
          stopsign := some ⟨[1, 2, 3], some [9]⟩ } }

/-- A reachable `connected` state for the C10 witness: peer 2's sender has
completed its initial connect. -/
def simoStateEx : SIMOConnState :=
  { connected := [2],
    phase := Function.update (fun _ => SenderPhase.connecting) 2 .live }

theorem SIMOInv.init (peers : List NodeId) : SIMOInv peers SIMOConnState.init := by
  refine ⟨List.nodup_nil, fun p => ?_, fun p hp => absurd rfl hp⟩
  simp [SIMOConnState.init]

theorem SIMOInv.step {peers : List NodeId} {s s' : SIMOConnState}
    (hs : SIMOInv peers s) (hstep : SIMOStep peers s s') : SIMOInv peers s' := by
  obtain ⟨hnd, hmem, hpeers⟩ := hs
  cases hstep with
  | connect p s hp h =>
    have hpnot : p ∉ s.connected := fun hc => by
      have := (hmem p).mp hc
      rw [h] at this
      exact SenderPhase.noConfusion this
    refine ⟨List.nodup_cons.mpr ⟨hpnot, hnd⟩, fun q => ?_, fun q hq => ?_⟩
    · by_cases hqp : q = p
      · subst hqp
        simp [Function.update_same]
      · simp only [List.mem_cons, Function.update_noteq hqp]
        constructor
        · rintro (rfl | hq)
          · exact absurd rfl hqp
          · exact (hmem q).mp hq
        · intro hq
          exact Or.inr ((hmem q).mpr hq)
    · by_cases hqp : q = p
      · subst hqp; exact hp
      · simp only [Function.update_noteq hqp] at hq
        exact hpeers q hq
  | writeFail p s h =>
    refine ⟨hnd.filter _, fun q => ?_, fun q hq => ?_⟩
    · by_cases hqp : q = p
      · subst hqp
        simp [Function.update_same, List.mem_filter]
      · simp only [List.mem_filter, Function.update_noteq hqp, decide_eq_true_eq]
        constructor
        · rintro ⟨hq, -⟩
          exact (hmem q).mp hq
        · intro hq
          exact ⟨(hmem q).mpr hq, hqp⟩
    · by_cases hqp : q = p
      · subst hqp
        refine hpeers q ?_
        rw [h]
        exact fun hc => SenderPhase.noConfusion hc
      · simp only [Function.update_noteq hqp] at hq
        exact hpeers q hq
  | reconnected p s h =>
    have hpnot : p ∉ s.connected := fun hc => by
      have := (hmem p).mp hc
      rw [h] at this
      exact SenderPhase.noConfusion this
    have hppeers : p ∈ peers := by
      refine hpeers p ?_
      rw [h]
      exact fun hc => SenderPhase.noConfusion hc
    refine ⟨List.nodup_cons.mpr ⟨hpnot, hnd⟩, fun q => ?_, fun q hq => ?_⟩
    · by_cases hqp : q = p
      · subst hqp
        simp [Function.update_same]
      · simp only [List.mem_cons, Function.update_noteq hqp]
        constructor
        · rintro (rfl | hq)
          · exact absurd rfl hqp
          · exact (hmem q).mp hq
        · intro hq
          exact Or.inr ((hmem q).mpr hq)
    · by_cases hqp : q = p
      · subst hqp; exact hppeers
      · simp only [Function.update_noteq hqp] at hq
        exact hpeers q hq

theorem SIMOInv.reachable {peers : List NodeId} {s : SIMOConnState}
    (h : SIMOReachable peers s) : SIMOInv peers s := by
  induction h with
  | refl => exact SIMOInv.init peers
  | tail _ hstep ih => exact ih.step hstep

/-!
Round-trip lemmas for the wire codecs, one per combinator and per message
type.
-/

theorem decNat_encNat (n : Nat) : decNat (encNat n) = some n := rfl

theorem decBool_encBool (b : Bool) : decBool (encBool b) = some b := rfl

theorem decOpt_encOpt (dec : Wire → Option α) (enc : α → Wire)
    (h : ∀ a, dec (enc a) = some a) : ∀ o, decOpt dec (encOpt enc o) = some o
  | none => rfl
  | some a => by simp [encOpt, decOpt, h a]

theorem decListAux_map (dec : Wire → Option α) (enc : α → Wire)
    (h : ∀ a, dec (enc a) = some a) :
    ∀ l : List α, decListAux dec (l.map enc) = some l
  | [] => rfl
  | a :: l => by
    simp [List.map, decListAux, h a, decListAux_map dec enc h l]

theorem decListW_encListW (dec : Wire → Option α) (enc : α → Wire)
    (h : ∀ a, dec (enc a) = some a) (l : List α) :
    decListW dec (encListW enc l) = some l := by
  simp [encListW, decListW, decListAux_map dec enc h]

theorem decBallot_encBallot (b : Ballot) : decBallot (encBallot b) = some b := by
  cases b; rfl

theorem decStopSign_encStopSign (ss : StopSign) :
    decStopSign (encStopSign ss) = some ss := by
  cases ss with
  | mk nodes md =>
    simp [encStopSign, decStopSign, decListW_encListW decNat encNat decNat_encNat,
          decOpt_encOpt _ _ (decListW_encListW decNat encNat decNat_encNat)]

theorem decSnapshotType_encSnapshotType (decS : Wire → Option S) (encS : S → Wire)
    (hS : ∀ s, decS (encS s) = some s) (st : SnapshotType T S) :
    decSnapshotType decS (encSnapshotType encS st) = some st := by
  cases st with
  | mk s => simp [encSnapshotType, decSnapshotType, hS s]

theorem decPrepare_encPrepare (p : Prepare) : decPrepare (encPrepare p) = some p := by
  cases p with
  | mk n di na ai =>
    simp [encPrepare, decPrepare, decBallot_encBallot]

theorem decPromise_encPromise (decT : Wire → Option T) (encT : T → Wire)
    (decS : Wire → Option S) (encS : S → Wire)
    (hT : ∀ t, decT (encT t) = some t) (hS : ∀ s, decS (encS s) = some s)
    (p : Promise T S) :
    decPromise decT decS (encPromise encT encS p) = some p := by
  cases p with
  | mk n na ds suf di ai ss =>
    simp [encPromise, decPromise, decBallot_encBallot,
          decOpt_encOpt _ _ (decSnapshotType_encSnapshotType decS encS hS),
          decListW_encListW decT encT hT,
          decOpt_encOpt _ _ decStopSign_encStopSign]

theorem decAcceptSync_encAcceptSync (decT : Wire → Option T) (encT : T → Wire)
    (decS : Wire → Option S) (encS : S → Wire)
    (hT : ∀ t, decT (encT t) = some t) (hS : ∀ s, decS (encS s) = some s)
    (a : AcceptSync T S) :
    decAcceptSync decT decS (encAcceptSync encT encS a) = some a := by
  cases a with
  | mk n ds suf si di ss =>
    simp [encAcceptSync, decAcceptSync, decBallot_encBallot,
          decOpt_encOpt _ _ (decSnapshotType_encSnapshotType decS encS hS),
          decListW_encListW decT encT hT,
          decOpt_encOpt _ _ decStopSign_encStopSign]

theorem decFirstAccept_encFirstAccept (f : FirstAccept) :
    decFirstAccept (encFirstAccept f) = some f := by
  cases f with
  | mk n => simp [encFirstAccept, decFirstAccept, decBallot_encBallot]

theorem decAcceptDecide_encAcceptDecide (decT : Wire → Option T) (encT : T → Wire)
    (hT : ∀ t, decT (encT t) = some t) (a : AcceptDecide T) :
    decAcceptDecide decT (encAcceptDecide encT a) = some a := by
  cases a with
  | mk n di entries =>
    simp [encAcceptDecide, decAcceptDecide, decBallot_encBallot,
          decListW_encListW decT encT hT]

theorem decAccepted_encAccepted (a : Accepted) :
    decAccepted (encAccepted a) = some a := by
  cases a with
  | mk n ai => simp [encAccepted, decAccepted, decBallot_encBallot]

theorem decDecide_encDecide (d : Decide) : decDecide (encDecide d) = some d := by
  cases d with
  | mk n di => simp [encDecide, decDecide, decBallot_encBallot]

theorem decAcceptStopSign_encAcceptStopSign (a : AcceptStopSign) :
    decAcceptStopSign (encAcceptStopSign a) = some a := by
  cases a with
  | mk n ss =>
    simp [encAcceptStopSign, decAcceptStopSign, decBallot_encBallot,
          decStopSign_encStopSign]

theorem decAcceptedStopSign_encAcceptedStopSign (a : AcceptedStopSign) :
    decAcceptedStopSign (encAcceptedStopSign a) = some a := by
  cases a with
  | mk n => simp [encAcceptedStopSign, decAcceptedStopSign, decBallot_encBallot]

theorem decDecideStopSign_encDecideStopSign (d : DecideStopSign) :
    decDecideStopSign (encDecideStopSign d) = some d := by
  cases d with
  | mk n => simp [encDecideStopSign, decDecideStopSign, decBallot_encBallot]

theorem decCompaction_encCompaction (c : Compaction) :
    decCompaction (encCompaction c) = some c := by
  cases c with
  | Trim idx => rfl
  | Snapshot idx =>
    simp [encCompaction, decCompaction, decOpt_encOpt decNat encNat decNat_encNat]

theorem decPaxosMsg_encPaxosMsg (decT : Wire → Option T) (encT : T → Wire)
    (decS : Wire → Option S) (encS : S → Wire)
    (hT : ∀ t, decT (encT t) = some t) (hS : ∀ s, decS (encS s) = some s)
    (m : PaxosMsg T S) :
    decPaxosMsg decT decS (encPaxosMsg encT encS m) = some m := by
  cases m <;>
    simp [encPaxosMsg, decPaxosMsg, decPrepare_encPrepare,
          decPromise_encPromise decT encT decS encS hT hS,
          decAcceptSync_encAcceptSync decT encT decS encS hT hS,
          decFirstAccept_encFirstAccept,
          decAcceptDecide_encAcceptDecide decT encT hT,
          decAccepted_encAccepted, decDecide_encDecide,
          decListW_encListW decT encT hT, decCompaction_encCompaction,
          decAcceptStopSign_encAcceptStopSign,
          decAcceptedStopSign_encAcceptedStopSign,
          decDecideStopSign_encDecideStopSign, decStopSign_encStopSign]

theorem decPaxosMessage_encPaxosMessage (decT : Wire → Option T) (encT : T → Wire)
    (decS : Wire → Option S) (encS : S → Wire)
    (hT : ∀ t, decT (encT t) = some t) (hS : ∀ s, decS (encS s) = some s)
    (pm : PaxosMessage T S) :
    decPaxosMessage decT decS (encPaxosMessage encT encS pm) = some pm := by
  cases pm with
  | mk f t m =>
    simp [encPaxosMessage, decPaxosMessage,
          decPaxosMsg_encPaxosMsg decT encT decS encS hT hS]

theorem decHeartbeatMsg_encHeartbeatMsg (m : HeartbeatMsg) :
    decHeartbeatMsg (encHeartbeatMsg m) = some m := by
  cases m with
  | Request r => cases r; rfl
  | Reply r =>
    cases r with
    | mk round b qc =>
      simp [encHeartbeatMsg, decHeartbeatMsg, encHeartbeatReply,
            decHeartbeatReply, decBallot_encBallot]

theorem decBLEMessage_encBLEMessage (bm : BLEMessage) :
    decBLEMessage (encBLEMessage bm) = some bm := by
  cases bm with
  | mk f t m =>
    simp [encBLEMessage, decBLEMessage, decHeartbeatMsg_encHeartbeatMsg]

/-!
Helper lemmas about the transport loops.
-/

theorem receive_message_some (m : Message T S) (rest : List (Message T S)) :
    ∀ polls : List (List (Message T S)),
      receive_message polls = some (m, rest) →
      ∃ i : Nat, polls[i]? = some (m :: rest) ∧
        ∀ j : Nat, j < i → polls[j]? = some []
  | [], h => by simp [receive_message] at h
  | [] :: qs, h => by
    obtain ⟨i, hi, hbefore⟩ := receive_message_some m rest qs h
    refine ⟨i + 1, by simpa using hi, ?_⟩
    intro j hj
    cases j with
    | zero => simp
    | succ j' => simpa using hbefore j' (by omega)
  | (x :: xs) :: qs, h => by
    rw [receive_message] at h
    obtain ⟨rfl, rfl⟩ : x = m ∧ xs = rest := by
      simpa using h
    exact ⟨0, by simp, fun j hj => absurd hj (Nat.not_lt_zero j)⟩

theorem receive_message_all_empty :
    ∀ polls : List (List (Message T S)),
      (∀ q ∈ polls, q = []) → receive_message polls = none
  | [], _ => rfl
  | q :: qs, h => by
    obtain rfl : q = [] := h q (List.mem_cons_self q qs)
    rw [receive_message]
    exact receive_message_all_empty qs fun x hx => h x (List.mem_cons_of_mem _ hx)

theorem start_sender_poll_spec (P : Nat) :
    ∀ (tr : List Nat) (i : Nat), start_sender_poll P tr = some i →
      (∃ v : Nat, tr[i]? = some v ∧ quorum_threshold P ≤ v) ∧
      ∀ j v : Nat, j < i → tr[j]? = some v → v < quorum_threshold P
  | [], i, h => by simp [start_sender_poll] at h
  | n :: rest, i, h => by
    rw [start_sender_poll] at h
    by_cases hgate : quorum_threshold P ≤ n
    · rw [if_pos hgate] at h
      obtain rfl : (0 : Nat) = i := by simpa using h
      exact ⟨⟨n, by simp, hgate⟩, fun j v hj => absurd hj (Nat.not_lt_zero j)⟩
    · rw [if_neg hgate] at h
      obtain ⟨i', hi', rfl⟩ : ∃ i', start_sender_poll P rest = some i' ∧ i' + 1 = i := by
        cases hrec : start_sender_poll P rest with
        | none => rw [hrec] at h; simp at h
        | some k => rw [hrec] at h; exact ⟨k, rfl, by simpa using h⟩
      obtain ⟨⟨v, hv, hv2⟩, hbefore⟩ := start_sender_poll_spec P rest i' hi'
      refine ⟨⟨v, by simpa using hv, hv2⟩, ?_⟩
      intro j w hj hw
      cases j with
      | zero =>
        obtain rfl : n = w := by simpa using hw
        omega
      | succ j' => exact hbefore j' w (by omega) (by simpa using hw)

theorem iter_send_ok (rid : NodeId) (s : SenderState T S) (msg : Message T S)
    (rest : List (Message T S)) (hbuf : s.buf = msg :: rest)
    (hrecv : msg.get_receiver = rid) (hconn : rid ∈ s.connected) :
    process_outgoing_connection_iter rid true s =
      { s with buf := rest, delivered := s.delivered ++ [msg],
               written := s.written ++ [msg] } := by
  simp [process_outgoing_connection_iter, hbuf, hrecv, hconn]

theorem iter_send_fail (rid : NodeId) (s : SenderState T S) (msg : Message T S)
    (rest : List (Message T S)) (hbuf : s.buf = msg :: rest)
    (hrecv : msg.get_receiver = rid) (hconn : rid ∈ s.connected) :
    process_outgoing_connection_iter rid false s =
      { buf := rest,
        connected := rid :: s.connected.filter (fun x => x ≠ rid),
        delivered := s.delivered,
        written := s.written ++ [msg] } := by
  simp [process_outgoing_connection_iter, hbuf, hrecv, hconn]

theorem iter_written_receiver (rid : NodeId) (wOk : Bool) (s : SenderState T S) :
    ∀ m ∈ (process_outgoing_connection_iter rid wOk s).written,
      m ∈ s.written ∨ m.get_receiver = rid := by
  intro m hm
  cases hbuf : s.buf with
  | nil =>
    simp only [process_outgoing_connection_iter, hbuf] at hm
    exact Or.inl hm
  | cons msg rest =>
    simp only [process_outgoing_connection_iter, hbuf] at hm
    split_ifs at hm with hconn hrid hok
    · simp only [List.mem_append, List.mem_singleton] at hm
      rcases hm with hm | rfl
      · exact Or.inl hm
      · exact Or.inr hrid
    · simp only [List.mem_append, List.mem_singleton] at hm
      rcases hm with hm | rfl
      · exact Or.inl hm
      · exact Or.inr hrid
    · exact Or.inl hm
    · exact Or.inl hm

theorem run_written_receiver (rid : NodeId) :
    ∀ (script : List Bool) (s : SenderState T S),
      (∀ m ∈ s.written, m.get_receiver = rid) →
      ∀ m ∈ (process_outgoing_connection_run rid script s).written,
        m.get_receiver = rid
  | [], s, hs, m, hm => hs m hm
  | w :: ws, s, hs, m, hm => by
    refine run_written_receiver rid ws _ ?_ m hm
    intro x hx
    rcases iter_written_receiver rid w s x hx with hx' | hx'
    · exact hs x hx'
    · exact hx'

theorem run_all_true_delivers (rid : NodeId) :
    ∀ (ms : List (Message T S)) (conn : List NodeId) (d w : List (Message T S)),
      rid ∈ conn → (∀ x ∈ ms, x.get_receiver = rid) →
      process_outgoing_connection_run rid (List.replicate ms.length true)
          ⟨ms, conn, d, w⟩ = ⟨[], conn, d ++ ms, w ++ ms⟩
  | [], conn, d, w, _, _ => by
    simp [process_outgoing_connection_run]
  | m :: ms, conn, d, w, hconn, hall => by
    have hm : m.get_receiver = rid := hall m (List.mem_cons_self m ms)
    have hstep := iter_send_ok rid ⟨m :: ms, conn, d, w⟩ m ms rfl hm hconn
    simp only [List.length_cons, List.replicate_succ,
               process_outgoing_connection_run, hstep]
    have := run_all_true_delivers rid ms conn (d ++ [m]) (w ++ [m]) hconn
      (fun x hx => hall x (List.mem_cons_of_mem _ hx))
    rw [this]
    simp

theorem foldl_send_message :
    ∀ (ms buf : List (Message T S)), List.foldl send_message buf ms = buf ++ ms
  | [], buf => by simp
  | m :: ms, buf => by
    rw [List.foldl_cons, foldl_send_message ms (send_message buf m)]
    simp [send_message]

/-!
Claim theorems.
-/

/-- C1: for every trace of `connected.len()` values observed by the readiness
loop of `start_sender` over a peer table with `P` configured peers (excluding
self), the loop returns only at a poll where the length has reached the
quorum threshold, that threshold equals `⌊(P+1)/2⌋ + 1`, and at every earlier
poll — while the length was below the threshold — it did not return. -/
theorem start_sender_returns_at_quorum (P i : Nat) (tr : List Nat)
    (h : start_sender_poll P tr = some i) :
    quorum_threshold P = (P + 1) / 2 + 1 ∧
    (∃ v : Nat, tr[i]? = some v ∧ quorum_threshold P ≤ v) ∧
    ∀ j v : Nat, j < i → tr[j]? = some v → v < quorum_threshold P :=
  ⟨rfl, (start_sender_poll_spec P tr i h).1, (start_sender_poll_spec P tr i h).2⟩

theorem start_sender_returns_at_quorum_witness :
    start_sender_poll 3 [1, 2, 3] = some 2 ∧
    (quorum_threshold 3 = (3 + 1) / 2 + 1 ∧
     (∃ v : Nat, ([1, 2, 3] : List Nat)[2]? = some v ∧ quorum_threshold 3 ≤ v) ∧
     ∀ j v : Nat, j < 2 → ([1, 2, 3] : List Nat)[j]? = some v →
       v < quorum_threshold 3) :=
  ⟨by decide, start_sender_returns_at_quorum 3 2 [1, 2, 3] (by decide)⟩

/-- C2: in any sender-loop iteration where the outgoing queue is non-empty
and the head message's receiver is not in the `connected` set, the head is
popped and discarded: the queue loses exactly its head while nothing is
written or delivered and `connected` is unchanged — and this holds for every
sender id `rid`, in particular when `rid` differs from the head's receiver. -/
theorem discard_head_not_connected (rid : NodeId) (wOk : Bool)
    (s : SenderState T S) (msg : Message T S) (rest : List (Message T S))
    (hbuf : s.buf = msg :: rest) (hconn : msg.get_receiver ∉ s.connected) :
    process_outgoing_connection_iter rid wOk s = { s with buf := rest } := by
  simp [process_outgoing_connection_iter, hbuf, hconn]

theorem discard_head_not_connected_witness :
    (senderStateEx2.buf = [msgEx2] ∧
     msgEx2.get_receiver ∉ senderStateEx2.connected) ∧
    process_outgoing_connection_iter 1 true senderStateEx2
      = { senderStateEx2 with buf := [] } :=
  ⟨⟨rfl, by decide⟩,
   discard_head_not_connected 1 true senderStateEx2 msgEx2 [] rfl (by decide)⟩

/-- C3 counterexample: with three messages queued for the connected peer 2
and the first `write_frame` failing, the run pops the first message before the
failed write and never re-sends it, so only the remaining two messages are
delivered — the first is silently dropped by the write-failure/reconnect path
even though peer 2 reconnects and delivery resumes. -/
theorem write_failure_drops_inflight :
    (process_outgoing_connection_run 2 [false, true, true] senderStateC3).delivered
      = [msgC3 2, msgC3 3] ∧
    msgC3 1 ∉
      (process_outgoing_connection_run 2 [false, true, true] senderStateC3).delivered ∧
    (process_outgoing_connection_run 2 [false, true, true] senderStateC3).buf = [] := by
  decide

/-- C3 (amended): if the connection fails during the write of the head
message while further messages for that peer are queued, the sender reconnects
(re-inserting the peer at the front of `connected`) and delivery resumes:
every message that was still in the outgoing queue after the failed write
arrives at the peer in its original relative order — but the in-flight message
whose write failed is dropped and never delivered. -/
theorem write_failure_reconnect_resumes (rid : NodeId) (m : Message T S)
    (ms d w : List (Message T S)) (conn : List NodeId)
    (hconn : rid ∈ conn) (hm : m.get_receiver = rid)
    (hms : ∀ x ∈ ms, x.get_receiver = rid) :
    process_outgoing_connection_run rid (false :: List.replicate ms.length true)
        ⟨m :: ms, conn, d, w⟩ =
      ⟨[], rid :: conn.filter (fun x => x ≠ rid), d ++ ms, (w ++ [m]) ++ ms⟩ := by
  rw [process_outgoing_connection_run,
      iter_send_fail rid ⟨m :: ms, conn, d, w⟩ m ms rfl hm hconn]
  exact run_all_true_delivers rid ms _ d (w ++ [m]) (List.mem_cons_self _ _) hms

theorem write_failure_reconnect_resumes_witness :
    ((2 : NodeId) ∈ ([2] : List NodeId) ∧ (msgC3 1).get_receiver = 2 ∧
     ∀ x ∈ [msgC3 2, msgC3 3], x.get_receiver = 2) ∧
    process_outgoing_connection_run 2 (false :: List.replicate 2 true)
        ⟨[msgC3 1, msgC3 2, msgC3 3], [2], [], []⟩ =
      ⟨[], 2 :: ([2] : List NodeId).filter (fun x => x ≠ 2),
        [msgC3 2, msgC3 3], [msgC3 1, msgC3 2, msgC3 3]⟩ :=
  ⟨⟨by decide, by decide, by decide⟩,
   write_failure_reconnect_resumes 2 (msgC3 1) [msgC3 2, msgC3 3] [] [] [2]
     (by decide) (by decide) (by decide)⟩

/-- C4: evaluating the inbound reader step of `process_connection` at its
possible read events.  A frame that reads successfully but does not decode
into a message makes the reader panic (the `.unwrap()` on
`OmniMessageEntry::from_frame` at op_connection.rs line 184), contradicting
the claim that an undecodable frame is treated as connection loss with the
reader terminating cleanly; a read failure is handled as the claim says
(terminate without panic), and a decodable frame is enqueued. -/
theorem undecodable_frame_panics_reader :
    process_connection_step decodeEx4 ([] : List (Message Nat Nat)) (.frame false)
      = (ReaderOutcome.crashed, []) ∧
    process_connection_step decodeEx4 ([] : List (Message Nat Nat)) .closed
      = (ReaderOutcome.terminated, []) ∧
    process_connection_step decodeEx4 ([] : List (Message Nat Nat)) (.frame true)
      = (ReaderOutcome.running, [msgEx4]) := by
  decide

/-- C5: a per-peer sender writes only messages addressed to its own peer: in
an iteration where the head's receiver is in `connected` but differs from
this sender's peer id, the whole sender state — in particular the outgoing
queue — is left unchanged; and along any run, every message this sender has
written to its connection has `get_receiver()` equal to its peer id. -/
theorem sender_skips_other_connected_receivers (rid : NodeId) (wOk : Bool)
    (s : SenderState T S) (msg : Message T S) (rest : List (Message T S))
    (hbuf : s.buf = msg :: rest) (hconn : msg.get_receiver ∈ s.connected)
    (hne : msg.get_receiver ≠ rid) :
    process_outgoing_connection_iter rid wOk s = s ∧
    ∀ (script : List Bool) (s' : SenderState T S),
      (∀ x ∈ s'.written, x.get_receiver = rid) →
      ∀ x ∈ (process_outgoing_connection_run rid script s').written,
        x.get_receiver = rid := by
  refine ⟨?_, run_written_receiver rid⟩
  simp [process_outgoing_connection_iter, hbuf, hconn, hne]

theorem sender_skips_other_connected_receivers_witness :
    (senderStateEx5.buf = [msgEx5] ∧
     msgEx5.get_receiver ∈ senderStateEx5.connected ∧
     msgEx5.get_receiver ≠ 1) ∧
    (process_outgoing_connection_iter 1 true senderStateEx5 = senderStateEx5 ∧
     ∀ (script : List Bool) (s' : SenderState Nat Nat),
       (∀ x ∈ s'.written, x.get_receiver = 1) →
       ∀ x ∈ (process_outgoing_connection_run 1 script s').written,
         x.get_receiver = 1) :=
  ⟨⟨rfl, by decide, by decide⟩,
   sender_skips_other_connected_receivers 1 true senderStateEx5 msgEx5 [] rfl
     (by decide) (by decide)⟩

/-- C6: `receive_message` suspends while the incoming queue is empty (over a
poll trace whose snapshots are all empty it returns nothing), and whenever it
returns it returns the front — the oldest pending message — of the first
non-empty snapshot, every earlier poll having found the queue empty. -/
theorem receive_message_returns_oldest (polls : List (List (Message T S)))
    (m : Message T S) (rest : List (Message T S))
    (h : receive_message polls = some (m, rest)) :
    (∃ i : Nat, polls[i]? = some (m :: rest) ∧
       ∀ j : Nat, j < i → polls[j]? = some []) ∧
    ∀ qs : List (List (Message T S)), (∀ q ∈ qs, q = []) →
      receive_message qs = none :=
  ⟨receive_message_some m rest polls h, receive_message_all_empty⟩

theorem receive_message_returns_oldest_witness :
    receive_message [[], [msgEx4, msgEx5]] = some (msgEx4, [msgEx5]) ∧
    ((∃ i : Nat, ([[], [msgEx4, msgEx5]] : List (List (Message Nat Nat)))[i]?
          = some (msgEx4 :: [msgEx5]) ∧
        ∀ j : Nat, j < i →
          ([[], [msgEx4, msgEx5]] : List (List (Message Nat Nat)))[j]? = some []) ∧
     ∀ qs : List (List (Message Nat Nat)), (∀ q ∈ qs, q = []) →
       receive_message qs = none) :=
  ⟨by decide,
   receive_message_returns_oldest [[], [msgEx4, msgEx5]] msgEx4 [msgEx5] (by decide)⟩

/-- C7: `send_message` is a total function (it never fails) that appends the
message at the tail of the shared outgoing queue: all previously queued
messages are unchanged (they form the prefix, in their old order), the new
message is last, and sending a sequence of messages leaves the queue in
exactly the send-request (FIFO admission) order. -/
theorem send_message_appends_fifo (buf : List (Message T S)) (m : Message T S) :
    send_message buf m = buf ++ [m] ∧
    (send_message buf m).take buf.length = buf ∧
    (send_message buf m).getLast? = some m ∧
    ∀ ms : List (Message T S), List.foldl send_message buf ms = buf ++ ms := by
  refine ⟨rfl, ?_, ?_, fun ms => foldl_send_message ms buf⟩
  · simp [send_message]
  · simp [send_message]

/-- C8: `get_sender` and `get_receiver` on either envelope kind return
exactly the `from` and `to` fields supplied at construction — they are pure
accessors of the envelope, independent of the payload. -/
theorem get_sender_get_receiver_are_envelope_fields (f t : NodeId)
    (pm : PaxosMsg T S) (hm : HeartbeatMsg) :
    (Message.SequencePaxos (⟨f, t, pm⟩ : PaxosMessage T S)).get_sender = f ∧
    (Message.SequencePaxos (⟨f, t, pm⟩ : PaxosMessage T S)).get_receiver = t ∧
    ((Message.BLE ⟨f, t, hm⟩ : Message T S)).get_sender = f ∧
    ((Message.BLE ⟨f, t, hm⟩ : Message T S)).get_receiver = t :=
  ⟨rfl, rfl, rfl, rfl⟩

/-- C9: for every message of both families (every `PaxosMsg` variant wrapped
in a `PaxosMessage` and every `HeartbeatMsg` variant wrapped in a
`BLEMessage`, under the `Message` envelope), serializing to the
self-describing wire form and deserializing yields the original message,
given round-tripping codecs for the `Entry` and `Snapshot` type parameters. -/
theorem serialize_deserialize_roundtrip (encT : T → Wire) (decT : Wire → Option T)
    (encS : S → Wire) (decS : Wire → Option S)
    (hT : ∀ t, decT (encT t) = some t) (hS : ∀ s, decS (encS s) = some s)
    (m : Message T S) :
    decMessage decT decS (encMessage encT encS m) = some m := by
  cases m with
  | SequencePaxos pm =>
    simp [encMessage, decMessage,
          decPaxosMessage_encPaxosMessage decT encT decS encS hT hS]
  | BLE bm =>
    simp [encMessage, decMessage, decBLEMessage_encBLEMessage]

theorem serialize_deserialize_roundtrip_witness :
    (∀ t : Nat, decNat (encNat t) = some t) ∧
    decMessage decNat decNat (encMessage encNat encNat msgEx9) = some msgEx9 :=
  ⟨fun _ => rfl,
   serialize_deserialize_roundtrip encNat decNat encNat decNat
     (fun _ => rfl) (fun _ => rfl) msgEx9⟩

/-- C10: in every reachable state of a transport instance, the `connected`
list contains no duplicate node ids and only ids of the static peer table, so
its length — the quantity the quorum gate of `start_sender` compares against
the threshold — equals the number of distinct currently-connected peers. -/
theorem connected_nodup_and_in_peers (peers : List NodeId) (s : SIMOConnState)
    (h : SIMOReachable peers s) :
    s.connected.Nodup ∧ (∀ p ∈ s.connected, p ∈ peers) ∧
    s.connected.length = s.connected.toFinset.card := by
  obtain ⟨hnd, hmem, hpeers⟩ := SIMOInv.reachable h
  refine ⟨hnd, fun p hp => hpeers p ?_, (List.toFinset_card_of_nodup hnd).symm⟩
  rw [(hmem p).mp hp]
  exact fun hc => SenderPhase.noConfusion hc

theorem connected_nodup_and_in_peers_witness :
    SIMOReachable [1, 2, 3] simoStateEx ∧
    (simoStateEx.connected.Nodup ∧
     (∀ p ∈ simoStateEx.connected, p ∈ ([1, 2, 3] : List NodeId)) ∧
     simoStateEx.connected.length = simoStateEx.connected.toFinset.card) := by
  have hr : SIMOReachable [1, 2, 3] simoStateEx :=
    Relation.ReflTransGen.single
      (SIMOStep.connect 2 SIMOConnState.init (by decide) rfl)
  exact ⟨hr, connected_nodup_and_in_peers [1, 2, 3] simoStateEx hr⟩

end OmniPaxos
